import Mathlib

/-!
Heimdall bridge: slashing relay processor and the `propose-span` command.

A shallow embedding of

* `bridge/setu/processor/slashing.go` (the three task handlers
  `sendTickToHeimdall`, `sendTickToRootchain`, `sendTickAckToHeimdall` and
  their helpers), and
* `bor/cli/tx.go` (the `RunE` body of `PostSendProposeSpanTx`).

Handlers are modelled as pure functions from an environment of external
collaborators (JSON decoding, REST queries, the proposer query, the
broadcaster, ...) to an `Outcome`: the Go `error` that the handler returns
together with the ordered list of external calls it made. Logging is not
modelled.
-/

namespace Heimdall

/-! ## Data model -/

/-- A non-nil Go `error`; `Option GoError` is a Go `error` (`none` is `nil`). -/
structure GoError where
  msg : String
deriving DecidableEq, Repr

deriving instance DecidableEq for Except

/-- A Go byte slice. -/
abbrev Bytes := List Nat

/-- The type `hmTypes.HeimdallHash`, seen through its `Bytes()` method. -/
structure HeimdallHash where
  Bytes : Bytes
deriving DecidableEq, Repr

/-- The type `hmTypes.HeimdallAddress`, seen through its `Bytes()` method. -/
structure HeimdallAddress where
  Bytes : Bytes
deriving DecidableEq, Repr

/-- The type `sdk.Attribute`: one key/value pair of a ledger-chain event. -/
structure Attribute where
  Key : String
  Value : String
deriving DecidableEq, Repr

/-- The type `sdk.StringEvent`; `EventType` is its field `Type`. -/
structure StringEvent where
  EventType : String
  Attributes : List Attribute
deriving DecidableEq, Repr

/-- The type `hmTypes.ValidatorSlashingInfo`: one evidence record. -/
structure ValidatorSlashingInfo where
  ID : Nat
  SlashedAmount : Nat
  IsJailed : Bool
deriving DecidableEq, Repr

/-- The fields of a root-chain `types.Log` that the processor reads; the
rest of the log (address, topics, data) is kept as raw bytes for the ABI
decoder. -/
structure Log where
  TxHash : Bytes
  Index : Nat
  Data : Bytes
deriving DecidableEq, Repr

/-- The decoded `stakinginfo.StakinginfoSlashed` event. -/
structure StakinginfoSlashed where
  Nonce : Nat
  Amount : Nat
deriving DecidableEq, Repr

/-- Ledger-chain messages built by the processor: `slashingTypes.NewMsgtick`
and `slashingTypes.NewMsgtickAck`. -/
inductive Msg where
  | Tick (proposer : HeimdallAddress) (slashingInfoHash : HeimdallHash)
  | TickAck (proposer : HeimdallAddress) (txHash : HeimdallHash) (logIndex : Nat)
deriving DecidableEq, Repr

/-- The REST endpoints `util.LatestSlashInfoHashURL` and
`util.TickSlashInfoListURL`. -/
inductive Endpoint where
  | LatestSlashInfoHashURL
  | TickSlashInfoListURL
deriving DecidableEq, Repr

/-- An external call made by a handler: a chain or service query, a
ledger-chain broadcast, or an invocation of the root-chain submission routine
`createAndSendTickToRootchain`. -/
inductive Call where
  | IsCurrentProposer
  | FetchFromAPI (url : Endpoint)
  | BroadcastToHeimdall (msg : Msg)
  | createAndSendTickToRootchain (height : Int) (txHash : Bytes)
deriving DecidableEq, Repr

/-- What a handler invocation did: the error it returned and the calls it
made, in order. -/
structure Outcome where
  err : Option GoError
  calls : List Call
deriving DecidableEq, Repr

/-- The collaborators of `SlashingProcessor` that live outside
`slashing.go`: library functions, package constants and the answers of the
chains and services at the time of the call. -/
structure Env where
  /-- The call `json.Unmarshal([]byte(eventBytes), &event)` on a `sdk.StringEvent`. -/
  unmarshalEvent : String → Except GoError StringEvent
  /-- The call `json.Unmarshal([]byte(logBytes), &log)` on a `types.Log`. -/
  unmarshalLog : String → Except GoError Log
  /-- The constant `slashingTypes.AttributeKeyProposer`. -/
  AttributeKeyProposer : String
  /-- The constant `slashingTypes.AttributeKeySlashInfoHash`. -/
  AttributeKeySlashInfoHash : String
  /-- The constant `hmTypes.ZeroHeimdallHash`. -/
  ZeroHeimdallHash : HeimdallHash
  /-- The constant `hmTypes.ZeroHeimdallAddress`. -/
  ZeroHeimdallAddress : HeimdallAddress
  /-- The function `hmTypes.HexToHeimdallAddress`. -/
  HexToHeimdallAddress : String → HeimdallAddress
  /-- The function `hmTypes.HexToHeimdallHash`. -/
  HexToHeimdallHash : String → HeimdallHash
  /-- The function `hmTypes.BytesToHeimdallAddress`. -/
  BytesToHeimdallAddress : Bytes → HeimdallAddress
  /-- The function `hmTypes.BytesToHeimdallHash`. -/
  BytesToHeimdallHash : Bytes → HeimdallHash
  /-- The value of `helper.GetAddress()`. -/
  GetAddress : Bytes
  /-- The value of `helper.GetFromAddress(sp.cliCtx)`. -/
  GetFromAddress : HeimdallAddress
  /-- The answer of `util.IsCurrentProposer(sp.cliCtx)`. -/
  IsCurrentProposer : Except GoError Bool
  /-- The answer of `helper.FetchFromAPI` at an endpoint: `response.Result`. -/
  FetchFromAPI : Endpoint → Except GoError Bytes
  /-- The call `json.Unmarshal(response.Result, &slashInfoHash)`. -/
  unmarshalHash : Bytes → Except GoError HeimdallHash
  /-- The call `json.Unmarshal(response.Result, &slashInfoList)`. -/
  unmarshalSlashInfoList : Bytes → Except GoError (List ValidatorSlashingInfo)
  /-- The function `slashingTypes.GenerateInfoHash`. -/
  GenerateInfoHash : List ValidatorSlashingInfo → Except GoError Bytes
  /-- The call `helper.UnpackLog(sp.stakingInfoAbi, event, eventName, &log)`. -/
  UnpackLog : String → Log → Except GoError StakinginfoSlashed
  /-- The answer of `sp.txBroadcaster.BroadcastToHeimdall(msg)`. -/
  BroadcastToHeimdall : Msg → Option GoError

/-! ## Go library functions -/

/-- The value of one hexadecimal digit (`fromHexChar` of `encoding/hex`). -/
def fromHexChar (c : Char) : Option Nat :=
  if '0' ≤ c ∧ c ≤ '9' then some (c.toNat - '0'.toNat)
  else if 'a' ≤ c ∧ c ≤ 'f' then some (c.toNat - 'a'.toNat + 10)
  else if 'A' ≤ c ∧ c ≤ 'F' then some (c.toNat - 'A'.toNat + 10)
  else none

/-- The loop of `hex.Decode` over the characters of the source. -/
def hexDecodeChars : List Char → Except GoError Bytes
  | [] => .ok []
  | [c] =>
    match fromHexChar c with
    | none => .error ⟨"encoding/hex: invalid byte"⟩
    | some _ => .error ⟨"encoding/hex: odd length hex string"⟩
  | a :: b :: rest =>
    match fromHexChar a, fromHexChar b with
    | some x, some y =>
      match hexDecodeChars rest with
      | .ok bs => .ok ((x * 16 + y) :: bs)
      | .error e => .error e
    | _, _ => .error ⟨"encoding/hex: invalid byte"⟩

/-- The function `hex.DecodeString`. -/
def hexDecodeString (s : String) : Except GoError Bytes :=
  hexDecodeChars s.toList

/-- The conversion `uint64(x)` of an `int64`. -/
def toUint64 (x : Int) : Nat :=
  (x % 2 ^ 64).toNat

/-! ## `slashing.go` -/

/-- The method `shouldSendTickToRootchain`: its body is a bare `return`, so it
yields the zero values of its named results `(shouldSend bool, err error)`. -/
def shouldSendTickToRootchain (_tickNonce : Nat) : Bool × Option GoError :=
  (false, none)

/-- The method `createAndSendTickToRootchain`: its body is `return nil`. -/
def createAndSendTickToRootchain (_height : Int) (_txHash : Bytes) : Option GoError :=
  none

/-- The method `fetchLatestSlashInfoHash`, with the calls it makes. -/
def fetchLatestSlashInfoHash (env : Env) : Except GoError HeimdallHash × List Call :=
  match env.FetchFromAPI .LatestSlashInfoHashURL with
  | .error err => (.error err, [.FetchFromAPI .LatestSlashInfoHashURL])
  | .ok result =>
    match env.unmarshalHash result with
    | .error err => (.error err, [.FetchFromAPI .LatestSlashInfoHashURL])
    | .ok slashInfoHash => (.ok slashInfoHash, [.FetchFromAPI .LatestSlashInfoHashURL])

/-- The method `fetchTickSlashInfoList`, with the calls it makes. -/
def fetchTickSlashInfoList (env : Env) :
    Except GoError (List ValidatorSlashingInfo) × List Call :=
  match env.FetchFromAPI .TickSlashInfoListURL with
  | .error err => (.error err, [.FetchFromAPI .TickSlashInfoListURL])
  | .ok result =>
    match env.unmarshalSlashInfoList result with
    | .error err => (.error err, [.FetchFromAPI .TickSlashInfoListURL])
    | .ok slashInfoList => (.ok slashInfoList, [.FetchFromAPI .TickSlashInfoListURL])

/-- The method `validateTickSlashInfo`, returning `(isValid, err)`. -/
def validateTickSlashInfo (env : Env) (slashInfoList : List ValidatorSlashingInfo)
    (slashInfoHash : HeimdallHash) : Bool × Option GoError :=
  match env.GenerateInfoHash slashInfoList with
  | .error err => (false, some err)
  | .ok tickSlashInfoHash =>
    if tickSlashInfoHash = slashInfoHash.Bytes then (true, none) else (false, none)

/-- One iteration of the attribute loop of `sendTickToRootchain`, on the pair
`(proposerAddr, slashInfoHash)`. -/
def attributeStep (env : Env) (acc : HeimdallAddress × HeimdallHash) (attr : Attribute) :
    HeimdallAddress × HeimdallHash :=
  let proposerAddr :=
    if attr.Key = env.AttributeKeyProposer then env.HexToHeimdallAddress attr.Value else acc.1
  let slashInfoHash :=
    if attr.Key = env.AttributeKeySlashInfoHash then env.HexToHeimdallHash attr.Value else acc.2
  (proposerAddr, slashInfoHash)

/-- The attribute loop of `sendTickToRootchain`: the pair
`(proposerAddr, slashInfoHash)` after `for _, attr := range event.Attributes`. -/
def extractTickAttributes (env : Env) (attrs : List Attribute) :
    HeimdallAddress × HeimdallHash :=
  attrs.foldl (attributeStep env) (env.ZeroHeimdallAddress, env.ZeroHeimdallHash)

/-- The handler `sendTickToHeimdall`. -/
def sendTickToHeimdall (env : Env) (eventBytes : String) (_txHeight : Int)
    (_txHash : String) : Outcome :=
  match env.unmarshalEvent eventBytes with
  | .error err => ⟨some err, []⟩
  | .ok _event =>
    match fetchLatestSlashInfoHash env with
    | (.error err, calls) => ⟨some err, calls⟩
    | (.ok latestSlashInfoHash, calls) =>
      let msg := Msg.Tick (env.BytesToHeimdallAddress env.GetAddress) latestSlashInfoHash
      match env.BroadcastToHeimdall msg with
      | some err => ⟨some err, calls ++ [.BroadcastToHeimdall msg]⟩
      | none => ⟨none, calls ++ [.BroadcastToHeimdall msg]⟩

/-- The handler `sendTickToRootchain`. -/
def sendTickToRootchain (env : Env) (eventBytes : String) (txHeight : Int)
    (txHash : String) : Outcome :=
  match env.unmarshalEvent eventBytes with
  | .error err => ⟨some err, []⟩
  | .ok event =>
    let slashInfoHash := (extractTickAttributes env event.Attributes).2
    match env.IsCurrentProposer with
    | .error err => ⟨some err, [.IsCurrentProposer]⟩
    | .ok isCurrentProposer =>
      match shouldSendTickToRootchain (toUint64 txHeight) with
      | (_, some err) => ⟨some err, [.IsCurrentProposer]⟩
      | (shouldSend, none) =>
        match fetchTickSlashInfoList env with
        | (.error err, calls) => ⟨some err, .IsCurrentProposer :: calls⟩
        | (.ok tickSlashInfoList, calls) =>
          match validateTickSlashInfo env tickSlashInfoList slashInfoHash with
          | (_, some err) => ⟨some err, .IsCurrentProposer :: calls⟩
          | (isValidSlashInfo, none) =>
            if shouldSend && isValidSlashInfo && isCurrentProposer then
              match hexDecodeString txHash with
              | .error err => ⟨some err, .IsCurrentProposer :: calls⟩
              | .ok txHashBytes =>
                match createAndSendTickToRootchain txHeight txHashBytes with
                | some err =>
                  ⟨some err, .IsCurrentProposer :: calls ++
                    [.createAndSendTickToRootchain txHeight txHashBytes]⟩
                | none =>
                  ⟨none, .IsCurrentProposer :: calls ++
                    [.createAndSendTickToRootchain txHeight txHashBytes]⟩
            else ⟨none, .IsCurrentProposer :: calls⟩

/-- The handler `sendTickAckToHeimdall`. The conversion `uint64(log.Index)` of
a Go `uint` keeps the value. -/
def sendTickAckToHeimdall (env : Env) (eventName : String) (logBytes : String) : Outcome :=
  match env.unmarshalLog logBytes with
  | .error err => ⟨some err, []⟩
  | .ok log =>
    match env.UnpackLog eventName log with
    | .error _ => ⟨none, []⟩
    | .ok _event =>
      let msg := Msg.TickAck env.GetFromAddress (env.BytesToHeimdallHash log.TxHash) log.Index
      match env.BroadcastToHeimdall msg with
      | some err => ⟨some err, [.BroadcastToHeimdall msg]⟩
      | none => ⟨none, [.BroadcastToHeimdall msg]⟩

/-- The calls of an outcome that submit a transaction to the root chain. -/
def rootchainSubmissions (o : Outcome) : List Call :=
  o.calls.filter fun c =>
    match c with
    | .createAndSendTickToRootchain _ _ => true
    | _ => false

/-- The ledger-chain broadcasts of an outcome. -/
def heimdallBroadcasts (o : Outcome) : List Msg :=
  o.calls.filterMap fun c =>
    match c with
    | .BroadcastToHeimdall msg => some msg
    | _ => none

/-- The chain and service queries of an outcome. -/
def chainQueries (o : Outcome) : List Call :=
  o.calls.filter fun c =>
    match c with
    | .IsCurrentProposer => true
    | .FetchFromAPI _ => true
    | _ => false

/-! ## The evidence commitment -/

/-- The canonical order of an evidence list: ascending validator ID. -/
def canonicalOrder (l : List ValidatorSlashingInfo) : List ValidatorSlashingInfo :=
  l.insertionSort fun a b => a.ID ≤ b.ID

/-- Modelled from the spec: `slashingTypes.GenerateInfoHash` is called by
`validateTickSlashInfo` but its body is not among the sources. The spec's
`commitmentOf` is "a fixed-width hash over a canonically ordered sequence"
of evidence records, "a pure, order-sensitive function of a canonical
serialization of the evidence list", with canonical ordering "by validator ID
ascending", and it may return an error. The serialization and the hash are
parameters. -/
def GenerateInfoHash (serialize : List ValidatorSlashingInfo → Except GoError Bytes)
    (hash : Bytes → Bytes) (slashingInfoList : List ValidatorSlashingInfo) :
    Except GoError Bytes :=
  match serialize (canonicalOrder slashingInfoList) with
  | .error err => .error err
  | .ok encoded => .ok (hash encoded)

/-! ## `bor/cli/tx.go` -/

/-- The loop of `strconv.ParseUint(s, 10, 64)` over the characters that are
left, `n` being the value read so far. -/
def parseUintLoop : List Char → Nat → Except GoError Nat
  | [], n => .ok n
  | c :: cs, n =>
    if c.isDigit then
      if n * 10 + (c.toNat - '0'.toNat) < 2 ^ 64 then
        parseUintLoop cs (n * 10 + (c.toNat - '0'.toNat))
      else .error ⟨"strconv.ParseUint: value out of range"⟩
    else .error ⟨"strconv.ParseUint: invalid syntax"⟩

/-- The function `strconv.ParseUint(s, 10, 64)`. -/
def ParseUint (s : String) : Except GoError Nat :=
  if s = "" then .error ⟨"strconv.ParseUint: invalid syntax"⟩
  else parseUintLoop s.toList 0

/-- The values `viper.GetString` gives for the four flags of `propose-span`;
a flag that was not passed reads as the empty string, its default. -/
structure Flags where
  FlagBorChainId : String
  FlagProposerAddress : String
  FlagStartBlock : String
  FlagSpanId : String
deriving DecidableEq, Repr

/-- The type `types.Validator`, as far as the command reads it. -/
structure Validator where
  ID : Nat
  StartEpoch : Nat
  EndEpoch : Nat
  VotingPower : Nat
  Signer : HeimdallAddress
deriving DecidableEq, Repr

/-- The type `types.MinimalVal`. -/
structure MinimalVal where
  ID : Nat
  VotingPower : Nat
  Signer : HeimdallAddress
deriving DecidableEq, Repr

/-- The message built by `bor.NewMsgProposeSpan`. -/
structure MsgProposeSpan where
  ID : Nat
  Proposer : HeimdallAddress
  StartBlock : Nat
  EndBlock : Nat
  Validators : List MinimalVal
  SelectedProducers : List MinimalVal
  ChainID : String
deriving DecidableEq, Repr

/-- The two `QueryWithData` paths of the command: the span-duration parameter
of the bor module and the ack count of the checkpoint module. -/
inductive QueryPath where
  | SpanDuration
  | AckCount
deriving DecidableEq, Repr

/-- A network call of the command: a chain query or the broadcast. -/
inductive CliCall where
  | QueryWithData (path : QueryPath)
  | QueryStore
  | BroadcastMsgsWithCLI (msgs : List MsgProposeSpan)
deriving DecidableEq, Repr

/-- What a run of the command did: the error it returned and its network
calls, in order. -/
structure CliOutcome where
  err : Option GoError
  calls : List CliCall
deriving DecidableEq, Repr

/-- The collaborators of the command that live outside `tx.go`. -/
structure CliEnv where
  /-- The function `types.HexToHeimdallAddress`. -/
  HexToHeimdallAddress : String → HeimdallAddress
  /-- The method `HeimdallAddress.Empty`. -/
  Empty : HeimdallAddress → Bool
  /-- The value of `helper.GetFromAddress(cliCtx)`, read from the local
  context and key file. -/
  GetFromAddress : HeimdallAddress
  /-- The answer of `cliCtx.QueryWithData(path, nil)`. -/
  QueryWithData : QueryPath → Except GoError Bytes
  /-- The answer of `cliCtx.QueryStore(staking.CurrentValidatorSetKey, "staking")`. -/
  QueryStore : Except GoError Bytes
  /-- The call `cliCtx.Codec.UnmarshalJSON(res, &x)` on a `uint64`. -/
  UnmarshalJSON : Bytes → Except GoError Nat
  /-- The validators of `_validatorSet` after
  `cdc.UnmarshalBinaryBare(res, &_validatorSet)`, whose error is dropped. -/
  UnmarshalBinaryBare : Bytes → List Validator
  /-- The method `Validator.IsCurrentValidator`. -/
  IsCurrentValidator : Validator → Nat → Bool
  /-- The method `Validator.MinimalVal`. -/
  MinimalVal : Validator → MinimalVal
  /-- The answer of `helper.BroadcastMsgsWithCLI(cliCtx, msgs)`. -/
  BroadcastMsgsWithCLI : List MsgProposeSpan → Option GoError

/-- The proposer of the span: the `--proposer` flag, or this node's own
address when the flag decodes to the empty address. -/
def spanProposer (env : CliEnv) (flags : Flags) : HeimdallAddress :=
  if env.Empty (env.HexToHeimdallAddress flags.FlagProposerAddress) then env.GetFromAddress
  else env.HexToHeimdallAddress flags.FlagProposerAddress

/-- The part of `RunE` after the flags are read: the three chain queries, the
message and its broadcast. The sum `startBlock+spanDuration` is a `uint64`. -/
def proposeSpanQueryAndBroadcast (env : CliEnv) (chainID : String)
    (proposer : HeimdallAddress) (startBlock spanId : Nat) : CliOutcome :=
  match env.QueryWithData .SpanDuration with
  | .error err => ⟨some err, [.QueryWithData .SpanDuration]⟩
  | .ok res =>
    if res.length = 0 then
      ⟨some ⟨"span duration not found"⟩, [.QueryWithData .SpanDuration]⟩
    else
      match env.UnmarshalJSON res with
      | .error err => ⟨some err, [.QueryWithData .SpanDuration]⟩
      | .ok spanDuration =>
        match env.QueryWithData .AckCount with
        | .error err => ⟨some err, [.QueryWithData .SpanDuration, .QueryWithData .AckCount]⟩
        | .ok res =>
          if res.length = 0 then
            ⟨some ⟨"Ack not found"⟩, [.QueryWithData .SpanDuration, .QueryWithData .AckCount]⟩
          else
            match env.UnmarshalJSON res with
            | .error err =>
              ⟨some err, [.QueryWithData .SpanDuration, .QueryWithData .AckCount]⟩
            | .ok ackCount =>
              match env.QueryStore with
              | .error err =>
                ⟨some err,
                  [.QueryWithData .SpanDuration, .QueryWithData .AckCount, .QueryStore]⟩
              | .ok res =>
                if res.length = 0 then
                  ⟨some ⟨"No current validator set found"⟩,
                    [.QueryWithData .SpanDuration, .QueryWithData .AckCount, .QueryStore]⟩
                else
                  let validators :=
                    ((env.UnmarshalBinaryBare res).filter fun val =>
                      env.IsCurrentValidator val ackCount).map env.MinimalVal
                  let msg : MsgProposeSpan :=
                    ⟨spanId, proposer, startBlock, (startBlock + spanDuration) % 2 ^ 64,
                      validators, validators, chainID⟩
                  ⟨env.BroadcastMsgsWithCLI [msg],
                    [.QueryWithData .SpanDuration, .QueryWithData .AckCount, .QueryStore,
                      .BroadcastMsgsWithCLI [msg]]⟩

/-- The `RunE` body of the `propose-span` command built by
`PostSendProposeSpanTx`, on the flag values it reads. No network call is made
before the three flag checks: `helper.GetFromAddress` reads local state. -/
def PostSendProposeSpanTx (env : CliEnv) (flags : Flags) : CliOutcome :=
  let chainID := flags.FlagBorChainId
  if chainID = "" then ⟨some ⟨"ChainID cannot be empty"⟩, []⟩
  else
    let proposer := spanProposer env flags
    let startBlockStr := flags.FlagStartBlock
    if startBlockStr = "" then ⟨some ⟨"Start block cannot be empty"⟩, []⟩
    else
      match ParseUint startBlockStr with
      | .error err => ⟨some err, []⟩
      | .ok startBlock =>
        let spanIdStr := flags.FlagSpanId
        if spanIdStr = "" then ⟨some ⟨"Span Id cannot be empty"⟩, []⟩
        else
          match ParseUint spanIdStr with
          | .error err => ⟨some err, []⟩
          | .ok spanId => proposeSpanQueryAndBroadcast env chainID proposer startBlock spanId

/-- The value of the last attribute of the list that carries the key, if any. -/
def lastValue (key : String) (attrs : List Attribute) : Option String :=
  ((attrs.filter fun attr => attr.Key = key).getLast?).map fun attr => attr.Value

/-! ## Concrete environments -/

/-- The evidence list of the end-to-end scenarios: validator 1, amount 100, jailed. -/
def sampleEvidence : List ValidatorSlashingInfo :=
  [⟨1, 100, true⟩]

/-- A stand-in for the hex parsers of the sample environment: the code points
of the string. -/
def sampleHex (s : String) : Bytes :=
  s.toList.map Char.toNat

/-- A stand-in for the commitment hash of the sample environment: the fields
of the records, in list order. -/
def sampleInfoHash (l : List ValidatorSlashingInfo) : Bytes :=
  l.flatMap fun info => [info.ID, info.SlashedAmount, if info.IsJailed then 1 else 0]

/-- A sample environment in which every collaborator answers without error:
this validator is the current proposer, the pending evidence is
`sampleEvidence`, and the payload `"tick"` is a confirming event that names
proposer `"p"` and carries the commitment of `sampleEvidence`. -/
def sampleEnv : Env where
  unmarshalEvent := fun s =>
    if s = "tick" then
      .ok ⟨"tick-confirm", [⟨"proposer", "p"⟩, ⟨"slash-info-hash", "\x01d\x01"⟩]⟩
    else .error ⟨"invalid character"⟩
  unmarshalLog := fun s =>
    if s = "log" then .ok ⟨[171], 3, [50]⟩ else .error ⟨"invalid character"⟩
  AttributeKeyProposer := "proposer"
  AttributeKeySlashInfoHash := "slash-info-hash"
  ZeroHeimdallHash := ⟨List.replicate 32 0⟩
  ZeroHeimdallAddress := ⟨List.replicate 20 0⟩
  HexToHeimdallAddress := fun s => ⟨sampleHex s⟩
  HexToHeimdallHash := fun s => ⟨sampleHex s⟩
  BytesToHeimdallAddress := fun b => ⟨b⟩
  BytesToHeimdallHash := fun b => ⟨b⟩
  GetAddress := [7]
  GetFromAddress := ⟨[7]⟩
  IsCurrentProposer := .ok true
  FetchFromAPI := fun url =>
    match url with
    | .LatestSlashInfoHashURL => .ok [1]
    | .TickSlashInfoListURL => .ok [2]
  unmarshalHash := fun b => .ok ⟨b⟩
  unmarshalSlashInfoList := fun _ => .ok sampleEvidence
  GenerateInfoHash := fun l => .ok (sampleInfoHash l)
  UnpackLog := fun name log =>
    if name = "Slashed" then .ok ⟨0, log.Data.sum⟩ else .error ⟨"no event signature"⟩
  BroadcastToHeimdall := fun _ => none

/-- The sample environment, except that this validator is not the current
proposer. -/
def notProposerEnv : Env :=
  { sampleEnv with IsCurrentProposer := .ok false }

/-- The sample environment, except that this validator is not the current
proposer and the evidence service is unreachable. -/
def fetchFailsEnv : Env :=
  { sampleEnv with
    IsCurrentProposer := .ok false
    FetchFromAPI := fun _ => .error ⟨"connection refused"⟩ }

/-- The sample environment with the commitment computed as the spec
describes: the records are serialized in canonical order, and the stand-in
hash is the identity. -/
def canonicalEnv : Env :=
  { sampleEnv with
    GenerateInfoHash := GenerateInfoHash (fun l => .ok (sampleInfoHash l)) id }

/-- The sample environment, except that the proposer query fails. -/
def proposerQueryFailsEnv : Env :=
  { sampleEnv with IsCurrentProposer := .error ⟨"proposer query failed"⟩ }

/-- A sample environment of the command in which every query answers and the
broadcast succeeds: span duration 64, ack count 5, two validators of which
the first is current. -/
def sampleCliEnv : CliEnv where
  HexToHeimdallAddress := fun s => ⟨sampleHex s⟩
  Empty := fun a => a.Bytes.all fun b => b = 0
  GetFromAddress := ⟨[7]⟩
  QueryWithData := fun path =>
    match path with
    | .SpanDuration => .ok [64]
    | .AckCount => .ok [5]
  QueryStore := .ok [1, 2]
  UnmarshalJSON := fun b => .ok b.sum
  UnmarshalBinaryBare := fun _ => [⟨1, 0, 9, 10, ⟨[7]⟩⟩, ⟨2, 6, 9, 20, ⟨[8]⟩⟩]
  IsCurrentValidator := fun val ackCount =>
    decide (val.StartEpoch ≤ ackCount) && decide (ackCount < val.EndEpoch)
  MinimalVal := fun val => ⟨val.ID, val.VotingPower, val.Signer⟩
  BroadcastMsgsWithCLI := fun _ => none

end Heimdall

namespace Heimdall

/-! ## Shared lemmas on `sendTickToRootchain` -/

/-- The calls of `fetchTickSlashInfoList` are one query of the evidence
endpoint, whatever its result. -/
theorem fetchTickSlashInfoList_calls (env : Env) :
    (fetchTickSlashInfoList env).2 = [.FetchFromAPI .TickSlashInfoListURL] := by
  unfold fetchTickSlashInfoList
  split
  · rfl
  · split <;> rfl

/-- Whatever the environment and the inputs, `sendTickToRootchain` neither
invokes `createAndSendTickToRootchain` nor broadcasts to the ledger chain. -/
theorem sendTickToRootchain_silent (env : Env) (eventBytes txHash : String) (txHeight : Int) :
    rootchainSubmissions (sendTickToRootchain env eventBytes txHeight txHash) = [] ∧
      heimdallBroadcasts (sendTickToRootchain env eventBytes txHeight txHash) = [] := by
  have hcalls := fetchTickSlashInfoList_calls env
  unfold sendTickToRootchain
  cases env.unmarshalEvent eventBytes with
  | error err => simp [rootchainSubmissions, heimdallBroadcasts]
  | ok event =>
    cases env.IsCurrentProposer with
    | error err => simp [rootchainSubmissions, heimdallBroadcasts]
    | ok isCurrentProposer =>
      rcases hf : fetchTickSlashInfoList env with ⟨res, calls⟩
      rw [hf] at hcalls
      simp only at hcalls
      subst hcalls
      cases res with
      | error err => simp [shouldSendTickToRootchain, rootchainSubmissions, heimdallBroadcasts]
      | ok list =>
        rcases hv : validateTickSlashInfo env list
          (extractTickAttributes env event.Attributes).2 with ⟨isValid, verr⟩
        cases verr <;>
          simp [shouldSendTickToRootchain, hv, rootchainSubmissions, heimdallBroadcasts]

/-! ## Claims on `sendTickToRootchain` -/

/-- C1: for a confirming event whose payload parses, when the leadership
query, the freshness query, the evidence-list fetch and the hash computation
all complete without error and at least one gate is false (not the current
proposer, or `shouldSend` false, or the recomputed commitment differs from the
one carried in the event), `sendTickToRootchain` returns nil and never calls
`createAndSendTickToRootchain`: zero root-chain submissions occur. -/
theorem sendTickToRootchain_gate_false (env : Env) (eventBytes txHash : String)
    (txHeight : Int) (event : StringEvent) (isCurrentProposer shouldSend : Bool)
    (tickSlashInfoList : List ValidatorSlashingInfo) (calls : List Call)
    (tickSlashInfoHash : Bytes)
    (hparse : env.unmarshalEvent eventBytes = .ok event)
    (hlead : env.IsCurrentProposer = .ok isCurrentProposer)
    (hfresh : shouldSendTickToRootchain (toUint64 txHeight) = (shouldSend, none))
    (hfetch : fetchTickSlashInfoList env = (.ok tickSlashInfoList, calls))
    (hhash : env.GenerateInfoHash tickSlashInfoList = .ok tickSlashInfoHash)
    (hgate : isCurrentProposer = false ∨ shouldSend = false ∨
      tickSlashInfoHash ≠ (extractTickAttributes env event.Attributes).2.Bytes) :
    (sendTickToRootchain env eventBytes txHeight txHash).err = none ∧
      rootchainSubmissions (sendTickToRootchain env eventBytes txHeight txHash) = [] := by
  refine ⟨?_, (sendTickToRootchain_silent env eventBytes txHash txHeight).1⟩
  unfold sendTickToRootchain
  simp only [hparse, hlead, hfresh, hfetch, validateTickSlashInfo, hhash]
  by_cases hc : tickSlashInfoHash = (extractTickAttributes env event.Attributes).2.Bytes
  · rcases hgate with h | h | h
    · simp [hc, h]
    · simp [hc, h]
    · exact absurd hc h
  · simp [hc]

/-- C1 witness: in the sample environment with this validator not the current
proposer, every evaluation succeeds, the leadership gate is false, and the
handler returns nil without a root-chain submission. -/
theorem sendTickToRootchain_gate_false_witness :
    (sendTickToRootchain notProposerEnv "tick" 10 "ab").err = none ∧
      rootchainSubmissions (sendTickToRootchain notProposerEnv "tick" 10 "ab") = [] :=
  sendTickToRootchain_gate_false notProposerEnv "tick" "ab" 10
    ⟨"tick-confirm", [⟨"proposer", "p"⟩, ⟨"slash-info-hash", "\x01d\x01"⟩]⟩ false false
    sampleEvidence [.FetchFromAPI .TickSlashInfoListURL] [1, 100, 1]
    (by decide) (by decide) (by decide) (by decide) (by decide) (Or.inl rfl)

/-- C2 (failing input): in the sample environment this validator is the
current proposer, nothing was ever relayed to the root chain, and the
commitment carried by the event equals the hash recomputed from the pending
evidence; still the handler makes no root-chain submission: its only calls are
the proposer query and the evidence fetch. -/
theorem sendTickToRootchain_never_submits :
    sampleEnv.IsCurrentProposer = .ok true ∧
      validateTickSlashInfo sampleEnv sampleEvidence
        (extractTickAttributes sampleEnv
          [⟨"proposer", "p"⟩, ⟨"slash-info-hash", "\x01d\x01"⟩]).2 = (true, none) ∧
      sendTickToRootchain sampleEnv "tick" 10 "ab" =
        ⟨none, [.IsCurrentProposer, .FetchFromAPI .TickSlashInfoListURL]⟩ ∧
      rootchainSubmissions (sendTickToRootchain sampleEnv "tick" 10 "ab") = [] := by
  decide

/-- C3 (counterexample): the payload parses and the Proposer Oracle answers
false without error, yet the handler returns a non-nil error, because the
evidence-list fetch fails. -/
theorem sendTickToRootchain_not_proposer_fetch_error :
    fetchFailsEnv.unmarshalEvent "tick" =
        .ok ⟨"tick-confirm", [⟨"proposer", "p"⟩, ⟨"slash-info-hash", "\x01d\x01"⟩]⟩ ∧
      fetchFailsEnv.IsCurrentProposer = .ok false ∧
      (sendTickToRootchain fetchFailsEnv "tick" 10 "ab").err =
        some ⟨"connection refused"⟩ := by
  decide

/-- C3 (amended): for a confirming event whose payload parses, if the
Proposer Oracle answers false without error, `sendTickToRootchain` issues zero
root-chain submissions and zero ledger-chain broadcasts; it returns nil
whenever the evidence-list fetch and the hash computation complete without
error, whatever the verdicts of the freshness and agreement gates, and it
returns the error of the fetch, or else of the hash computation, when one of
them fails. -/
theorem sendTickToRootchain_not_proposer (env : Env) (eventBytes txHash : String)
    (txHeight : Int) (event : StringEvent)
    (hparse : env.unmarshalEvent eventBytes = .ok event)
    (hlead : env.IsCurrentProposer = .ok false) :
    rootchainSubmissions (sendTickToRootchain env eventBytes txHeight txHash) = [] ∧
      heimdallBroadcasts (sendTickToRootchain env eventBytes txHeight txHash) = [] ∧
      (∀ list calls hash, fetchTickSlashInfoList env = (.ok list, calls) →
        env.GenerateInfoHash list = .ok hash →
        (sendTickToRootchain env eventBytes txHeight txHash).err = none) ∧
      (∀ err calls, fetchTickSlashInfoList env = (.error err, calls) →
        (sendTickToRootchain env eventBytes txHeight txHash).err = some err) ∧
      (∀ list calls err, fetchTickSlashInfoList env = (.ok list, calls) →
        env.GenerateInfoHash list = .error err →
        (sendTickToRootchain env eventBytes txHeight txHash).err = some err) := by
  refine ⟨(sendTickToRootchain_silent env eventBytes txHash txHeight).1,
    (sendTickToRootchain_silent env eventBytes txHash txHeight).2, ?_, ?_, ?_⟩
  · intro list calls hash hfetch hhash
    unfold sendTickToRootchain
    simp only [hparse, hlead, shouldSendTickToRootchain, hfetch, validateTickSlashInfo, hhash]
    by_cases hc : hash = (extractTickAttributes env event.Attributes).2.Bytes <;> simp [hc]
  · intro err calls hfetch
    unfold sendTickToRootchain
    simp only [hparse, hlead, shouldSendTickToRootchain, hfetch]
  · intro list calls err hfetch hhash
    unfold sendTickToRootchain
    simp only [hparse, hlead, shouldSendTickToRootchain, hfetch, validateTickSlashInfo, hhash]

/-- C3 witness: the amended claim at the sample environment with this
validator not the current proposer: no submission, no broadcast, nil error. -/
theorem sendTickToRootchain_not_proposer_witness :
    rootchainSubmissions (sendTickToRootchain notProposerEnv "tick" 10 "ab") = [] ∧
      heimdallBroadcasts (sendTickToRootchain notProposerEnv "tick" 10 "ab") = [] ∧
      (sendTickToRootchain notProposerEnv "tick" 10 "ab").err = none :=
  have h := sendTickToRootchain_not_proposer notProposerEnv "tick" "ab" 10
    ⟨"tick-confirm", [⟨"proposer", "p"⟩, ⟨"slash-info-hash", "\x01d\x01"⟩]⟩
    (by decide) (by decide)
  ⟨h.1, h.2.1, h.2.2.1 sampleEvidence [.FetchFromAPI .TickSlashInfoListURL] [1, 100, 1]
    (by decide) (by decide)⟩

/-- C4: for a confirming event whose payload parses, an error while
evaluating a gate is returned by the handler, the first one in the order
leadership, freshness, agreement, and no root-chain submission is made: the
error of the `IsCurrentProposer` query; else that of
`shouldSendTickToRootchain`, which in the source never fails; else that of the
evidence-list fetch; else that of the hash computation inside
`validateTickSlashInfo`. When all evaluations succeed and a gate is merely
false, the handler returns nil. -/
theorem sendTickToRootchain_gate_errors (env : Env) (eventBytes txHash : String)
    (txHeight : Int) (event : StringEvent)
    (hparse : env.unmarshalEvent eventBytes = .ok event) :
    rootchainSubmissions (sendTickToRootchain env eventBytes txHeight txHash) = [] ∧
      (∀ err, env.IsCurrentProposer = .error err →
        (sendTickToRootchain env eventBytes txHeight txHash).err = some err) ∧
      (shouldSendTickToRootchain (toUint64 txHeight)).2 = none ∧
      (∀ isCurrentProposer err calls, env.IsCurrentProposer = .ok isCurrentProposer →
        fetchTickSlashInfoList env = (.error err, calls) →
        (sendTickToRootchain env eventBytes txHeight txHash).err = some err) ∧
      (∀ isCurrentProposer list calls err, env.IsCurrentProposer = .ok isCurrentProposer →
        fetchTickSlashInfoList env = (.ok list, calls) →
        env.GenerateInfoHash list = .error err →
        (sendTickToRootchain env eventBytes txHeight txHash).err = some err) ∧
      (∀ isCurrentProposer list calls hash, env.IsCurrentProposer = .ok isCurrentProposer →
        fetchTickSlashInfoList env = (.ok list, calls) →
        env.GenerateInfoHash list = .ok hash →
        (isCurrentProposer = false ∨ (shouldSendTickToRootchain (toUint64 txHeight)).1 = false ∨
          hash ≠ (extractTickAttributes env event.Attributes).2.Bytes) →
        (sendTickToRootchain env eventBytes txHeight txHash).err = none) := by
  refine ⟨(sendTickToRootchain_silent env eventBytes txHash txHeight).1, ?_, rfl, ?_, ?_, ?_⟩
  · intro err hlead
    unfold sendTickToRootchain
    simp only [hparse, hlead]
  · intro isCurrentProposer err calls hlead hfetch
    unfold sendTickToRootchain
    simp only [hparse, hlead, shouldSendTickToRootchain, hfetch]
  · intro isCurrentProposer list calls err hlead hfetch hhash
    unfold sendTickToRootchain
    simp only [hparse, hlead, shouldSendTickToRootchain, hfetch, validateTickSlashInfo, hhash]
  · intro isCurrentProposer list calls hash hlead hfetch hhash _
    unfold sendTickToRootchain
    simp only [hparse, hlead, shouldSendTickToRootchain, hfetch, validateTickSlashInfo, hhash]
    by_cases hc : hash = (extractTickAttributes env event.Attributes).2.Bytes <;> simp [hc]

/-- C4 witness: when the proposer query fails, the handler returns that
error and makes no root-chain submission. -/
theorem sendTickToRootchain_gate_errors_witness :
    rootchainSubmissions (sendTickToRootchain proposerQueryFailsEnv "tick" 10 "ab") = [] ∧
      (sendTickToRootchain proposerQueryFailsEnv "tick" 10 "ab").err =
        some ⟨"proposer query failed"⟩ :=
  have h := sendTickToRootchain_gate_errors proposerQueryFailsEnv "tick" "ab" 10
    ⟨"tick-confirm", [⟨"proposer", "p"⟩, ⟨"slash-info-hash", "\x01d\x01"⟩]⟩ (by decide)
  ⟨h.1, h.2.1 ⟨"proposer query failed"⟩ (by decide)⟩

/-! ## Claims on the three handlers -/

/-- C5: a payload that fails JSON decoding makes each of the three handlers
return the decode error without making any call: zero broadcasts and zero
chain queries. -/
theorem handlers_decode_error (env : Env) (payload eventName txHash : String)
    (txHeight : Int) :
    (∀ err, env.unmarshalEvent payload = .error err →
      sendTickToHeimdall env payload txHeight txHash = ⟨some err, []⟩ ∧
      sendTickToRootchain env payload txHeight txHash = ⟨some err, []⟩) ∧
    (∀ err, env.unmarshalLog payload = .error err →
      sendTickAckToHeimdall env eventName payload = ⟨some err, []⟩) := by
  refine ⟨fun err h => ⟨?_, ?_⟩, fun err h => ?_⟩
  · unfold sendTickToHeimdall
    simp only [h]
  · unfold sendTickToRootchain
    simp only [h]
  · unfold sendTickAckToHeimdall
    simp only [h]

/-- C5 witness: the payload `"not json"` is rejected by both decoders of the sample
environment, and each handler returns the decode error with no call. -/
theorem handlers_decode_error_witness :
    sendTickToHeimdall sampleEnv "not json" 10 "ab" = ⟨some ⟨"invalid character"⟩, []⟩ ∧
      sendTickToRootchain sampleEnv "not json" 10 "ab" = ⟨some ⟨"invalid character"⟩, []⟩ ∧
      sendTickAckToHeimdall sampleEnv "Slashed" "not json" = ⟨some ⟨"invalid character"⟩, []⟩ :=
  have h := handlers_decode_error sampleEnv "not json" "Slashed" "ab" 10
  ⟨(h.1 ⟨"invalid character"⟩ (by decide)).1, (h.1 ⟨"invalid character"⟩ (by decide)).2,
    h.2 ⟨"invalid character"⟩ (by decide)⟩

/-- C6: for a root-chain log whose JSON parses, if the log decodes against
the `StakinginfoSlashed` schema under the given event name,
`sendTickAckToHeimdall` makes exactly one call, the ledger-chain broadcast of a
TickAck carrying this validator's address, the log's transaction hash and the
log's index, and returns the broadcaster's result; if the schema decode fails
it makes no call and returns nil. -/
theorem sendTickAckToHeimdall_spec (env : Env) (eventName logBytes : String) (log : Log)
    (hlog : env.unmarshalLog logBytes = .ok log) :
    (∀ event, env.UnpackLog eventName log = .ok event →
      sendTickAckToHeimdall env eventName logBytes =
        ⟨env.BroadcastToHeimdall
            (.TickAck env.GetFromAddress (env.BytesToHeimdallHash log.TxHash) log.Index),
          [.BroadcastToHeimdall
            (.TickAck env.GetFromAddress (env.BytesToHeimdallHash log.TxHash) log.Index)]⟩) ∧
    (∀ err, env.UnpackLog eventName log = .error err →
      sendTickAckToHeimdall env eventName logBytes = ⟨none, []⟩) := by
  refine ⟨fun event h => ?_, fun err h => ?_⟩
  · unfold sendTickAckToHeimdall
    simp only [hlog, h]
    cases env.BroadcastToHeimdall
      (.TickAck env.GetFromAddress (env.BytesToHeimdallHash log.TxHash) log.Index) <;> rfl
  · unfold sendTickAckToHeimdall
    simp only [hlog, h]

/-- C6 witness: the sample log (transaction hash `0xab`, index 3, amount 50)
under the event name `Slashed` yields exactly one TickAck broadcast carrying
that hash and index; under another name it yields no call and nil. -/
theorem sendTickAckToHeimdall_spec_witness :
    sendTickAckToHeimdall sampleEnv "Slashed" "log" =
        ⟨none, [.BroadcastToHeimdall (.TickAck ⟨[7]⟩ ⟨[171]⟩ 3)]⟩ ∧
      sendTickAckToHeimdall sampleEnv "Other" "log" = ⟨none, []⟩ :=
  ⟨(sendTickAckToHeimdall_spec sampleEnv "Slashed" "log" ⟨[171], 3, [50]⟩ (by decide)).1
      ⟨0, 50⟩ (by decide),
    (sendTickAckToHeimdall_spec sampleEnv "Other" "log" ⟨[171], 3, [50]⟩ (by decide)).2
      ⟨"no event signature"⟩ (by decide)⟩

/-- C7: for a triggering event whose payload parses, `sendTickToHeimdall`
queries the latest evidence commitment hash once. If the query or the
decoding of its result fails, the handler returns that error and broadcasts
nothing; otherwise it makes exactly one ledger-chain broadcast, of a Tick
whose proposer is this validator's own address and whose commitment is the
fetched hash, and returns the broadcaster's result. -/
theorem sendTickToHeimdall_spec (env : Env) (eventBytes txHash : String) (txHeight : Int)
    (event : StringEvent) (hparse : env.unmarshalEvent eventBytes = .ok event) :
    (∀ err, env.FetchFromAPI .LatestSlashInfoHashURL = .error err →
      sendTickToHeimdall env eventBytes txHeight txHash =
        ⟨some err, [.FetchFromAPI .LatestSlashInfoHashURL]⟩) ∧
    (∀ result err, env.FetchFromAPI .LatestSlashInfoHashURL = .ok result →
      env.unmarshalHash result = .error err →
      sendTickToHeimdall env eventBytes txHeight txHash =
        ⟨some err, [.FetchFromAPI .LatestSlashInfoHashURL]⟩) ∧
    (∀ result hash, env.FetchFromAPI .LatestSlashInfoHashURL = .ok result →
      env.unmarshalHash result = .ok hash →
      sendTickToHeimdall env eventBytes txHeight txHash =
        ⟨env.BroadcastToHeimdall (.Tick (env.BytesToHeimdallAddress env.GetAddress) hash),
          [.FetchFromAPI .LatestSlashInfoHashURL,
            .BroadcastToHeimdall
              (.Tick (env.BytesToHeimdallAddress env.GetAddress) hash)]⟩) := by
  refine ⟨fun err h => ?_, fun result err h hu => ?_, fun result hash h hu => ?_⟩
  · unfold sendTickToHeimdall fetchLatestSlashInfoHash
    simp only [hparse, h]
  · unfold sendTickToHeimdall fetchLatestSlashInfoHash
    simp only [hparse, h, hu]
  · unfold sendTickToHeimdall fetchLatestSlashInfoHash
    simp only [hparse, h, hu]
    cases env.BroadcastToHeimdall (.Tick (env.BytesToHeimdallAddress env.GetAddress) hash) <;>
      rfl

/-- C7 witness: in the sample environment the fetched hash is `[1]` and the
handler broadcasts one Tick with this validator's address and that hash. -/
theorem sendTickToHeimdall_spec_witness :
    sendTickToHeimdall sampleEnv "tick" 10 "ab" =
      ⟨none, [.FetchFromAPI .LatestSlashInfoHashURL,
        .BroadcastToHeimdall (.Tick ⟨[7]⟩ ⟨[1]⟩)]⟩ :=
  (sendTickToHeimdall_spec sampleEnv "tick" "ab" 10
    ⟨"tick-confirm", [⟨"proposer", "p"⟩, ⟨"slash-info-hash", "\x01d\x01"⟩]⟩
    (by decide)).2.2 [1] ⟨[1]⟩ (by decide) (by decide)

/-! ## Attribute extraction -/

/-- The value of the last attribute with a key, after one more attribute is
appended to the list. -/
theorem lastValue_concat (key : String) (attrs : List Attribute) (attr : Attribute) :
    lastValue key (attrs ++ [attr]) =
      if attr.Key = key then some attr.Value else lastValue key attrs := by
  unfold lastValue
  by_cases h : attr.Key = key
  · simp [List.filter_append, h]
  · simp [List.filter_append, h]

/-- An attribute with neither key leaves the pair of the loop as it is. -/
theorem attributeStep_other_key (env : Env) (acc : HeimdallAddress × HeimdallHash)
    (attr : Attribute) (hp : attr.Key ≠ env.AttributeKeyProposer)
    (hh : attr.Key ≠ env.AttributeKeySlashInfoHash) : attributeStep env acc attr = acc := by
  simp [attributeStep, hp, hh]

/-- C8: the proposer and the commitment that `sendTickToRootchain` extracts
from an ordered attribute list are the zero address when no attribute has the
proposer key and the zero hash when no attribute has the slash-info-hash key,
and otherwise the hex-decoded value of the last attribute carrying that key;
an attribute with any other key, wherever it stands in the list, affects
neither value. Extraction is a total function: it never fails. -/
theorem extractTickAttributes_last_wins (env : Env) (attrs : List Attribute) :
    (extractTickAttributes env attrs).1 =
        (match lastValue env.AttributeKeyProposer attrs with
          | none => env.ZeroHeimdallAddress
          | some value => env.HexToHeimdallAddress value) ∧
      (extractTickAttributes env attrs).2 =
        (match lastValue env.AttributeKeySlashInfoHash attrs with
          | none => env.ZeroHeimdallHash
          | some value => env.HexToHeimdallHash value) ∧
      (∀ before attr after, attrs = before ++ attr :: after →
        attr.Key ≠ env.AttributeKeyProposer → attr.Key ≠ env.AttributeKeySlashInfoHash →
        extractTickAttributes env attrs = extractTickAttributes env (before ++ after)) := by
  refine ⟨?_, ?_, ?_⟩
  · induction attrs using List.reverseRecOn with
    | nil => simp [extractTickAttributes, lastValue]
    | append_singleton l a ih =>
      rw [lastValue_concat]
      unfold extractTickAttributes at ih ⊢
      rw [List.foldl_append]
      by_cases h : a.Key = env.AttributeKeyProposer
      · simp [attributeStep, h]
      · simp only [List.foldl_cons, List.foldl_nil, attributeStep, h, if_false]
        exact ih
  · induction attrs using List.reverseRecOn with
    | nil => simp [extractTickAttributes, lastValue]
    | append_singleton l a ih =>
      rw [lastValue_concat]
      unfold extractTickAttributes at ih ⊢
      rw [List.foldl_append]
      by_cases h : a.Key = env.AttributeKeySlashInfoHash
      · simp [attributeStep, h]
      · simp only [List.foldl_cons, List.foldl_nil, attributeStep, h, if_false]
        exact ih
  · intro before attr after hsplit hp hh
    subst hsplit
    unfold extractTickAttributes
    rw [List.foldl_append, List.foldl_append, List.foldl_cons,
      attributeStep_other_key env _ attr hp hh]

/-- C8 witness: of two proposer attributes the later one wins, an attribute
with a foreign key between them changes nothing, and the commitment, which no
attribute carries, is the zero hash. -/
theorem extractTickAttributes_last_wins_witness :
    extractTickAttributes sampleEnv
        [⟨"proposer", "a"⟩, ⟨"module", "slashing"⟩, ⟨"proposer", "b"⟩] =
      (⟨[98]⟩, ⟨List.replicate 32 0⟩) ∧
    extractTickAttributes sampleEnv
        [⟨"proposer", "a"⟩, ⟨"module", "slashing"⟩, ⟨"proposer", "b"⟩] =
      extractTickAttributes sampleEnv [⟨"proposer", "a"⟩, ⟨"proposer", "b"⟩] :=
  ⟨by decide,
    (extractTickAttributes_last_wins sampleEnv
      [⟨"proposer", "a"⟩, ⟨"module", "slashing"⟩, ⟨"proposer", "b"⟩]).2.2
      [⟨"proposer", "a"⟩] ⟨"module", "slashing"⟩ [⟨"proposer", "b"⟩] rfl
      (by decide) (by decide)⟩

/-! ## The agreement gate and retrieval order -/

/-- Two lists that are permutations of each other and agree, position by
position, on an attribute that has no duplicate in them, are equal. -/
theorem eq_of_perm_of_map_eq {α β : Type} (f : α → β) :
    ∀ l₁ l₂ : List α, l₁.Perm l₂ → l₁.map f = l₂.map f → (l₁.map f).Nodup → l₁ = l₂
  | [], l₂, hperm, _, _ => (List.nil_perm.1 hperm).symm
  | a :: t, [], hperm, _, _ => absurd hperm.symm (by simp)
  | a :: t, b :: t₂, hperm, hmap, hnodup => by
    simp only [List.map_cons, List.cons.injEq] at hmap
    simp only [List.map_cons, List.nodup_cons] at hnodup
    have hmem : a ∈ b :: t₂ := hperm.subset (List.mem_cons_self a t)
    have hab : a = b := by
      rcases List.mem_cons.1 hmem with h | h
      · exact h
      · exact absurd (hmap.2 ▸ List.mem_map_of_mem f h) hnodup.1
    subst hab
    have htail := eq_of_perm_of_map_eq f t t₂ (List.Perm.cons_inv hperm) hmap.2 hnodup.2
    rw [htail]

/-- The canonical order lists validator IDs in ascending order. -/
theorem canonicalOrder_sorted (l : List ValidatorSlashingInfo) :
    ((canonicalOrder l).map fun info => info.ID).Sorted (· ≤ ·) := by
  have htotal : IsTotal ValidatorSlashingInfo (fun a b => a.ID ≤ b.ID) :=
    ⟨fun a b => Nat.le_total a.ID b.ID⟩
  have htrans : IsTrans ValidatorSlashingInfo (fun a b => a.ID ≤ b.ID) :=
    ⟨fun _ _ _ hab hbc => Nat.le_trans hab hbc⟩
  have hsorted := List.sorted_insertionSort (fun a b : ValidatorSlashingInfo => a.ID ≤ b.ID) l
  unfold canonicalOrder
  exact List.pairwise_map.2 hsorted

/-- The canonical order of an evidence set with one record per validator does
not depend on the order in which the records are listed. -/
theorem canonicalOrder_perm (l₁ l₂ : List ValidatorSlashingInfo) (hperm : l₁.Perm l₂)
    (hnodup : (l₁.map fun info => info.ID).Nodup) : canonicalOrder l₁ = canonicalOrder l₂ := by
  have h₁ : (canonicalOrder l₁).Perm l₁ := List.perm_insertionSort _ l₁
  have h₂ : (canonicalOrder l₂).Perm l₂ := List.perm_insertionSort _ l₂
  have hp : (canonicalOrder l₁).Perm (canonicalOrder l₂) := h₁.trans (hperm.trans h₂.symm)
  have hids : (canonicalOrder l₁).map (fun info => info.ID) =
      (canonicalOrder l₂).map (fun info => info.ID) :=
    List.eq_of_perm_of_sorted (hp.map _) (canonicalOrder_sorted l₁) (canonicalOrder_sorted l₂)
  have hnd : ((canonicalOrder l₁).map fun info => info.ID).Nodup :=
    ((h₁.map _).nodup_iff).2 hnodup
  exact eq_of_perm_of_map_eq _ _ _ hp hids hnd

/-- C9: when the commitment is computed as the spec describes (a hash of a
serialization of the evidence in ascending validator-ID order), two evidence
lists that are permutations of the same evidence set, with one record per
validator, get the same commitment, so `validateTickSlashInfo` returns the
same verdict for both against any event-carried commitment. -/
theorem validateTickSlashInfo_order_independent (env : Env)
    (serialize : List ValidatorSlashingInfo → Except GoError Bytes) (hash : Bytes → Bytes)
    (l₁ l₂ : List ValidatorSlashingInfo) (slashInfoHash : HeimdallHash)
    (hmodel : env.GenerateInfoHash = GenerateInfoHash serialize hash)
    (hperm : l₁.Perm l₂) (hnodup : (l₁.map fun info => info.ID).Nodup) :
    env.GenerateInfoHash l₁ = env.GenerateInfoHash l₂ ∧
      validateTickSlashInfo env l₁ slashInfoHash = validateTickSlashInfo env l₂ slashInfoHash := by
  have hhash : env.GenerateInfoHash l₁ = env.GenerateInfoHash l₂ := by
    rw [hmodel]
    unfold GenerateInfoHash
    rw [canonicalOrder_perm l₁ l₂ hperm hnodup]
  refine ⟨hhash, ?_⟩
  unfold validateTickSlashInfo
  rw [hhash]

/-- C9 witness: in the environment whose commitment follows the spec, the
two orders of a two-record evidence set get the same commitment and the same
verdict. -/
theorem validateTickSlashInfo_order_independent_witness :
    canonicalEnv.GenerateInfoHash [⟨2, 5, false⟩, ⟨1, 100, true⟩] =
        canonicalEnv.GenerateInfoHash [⟨1, 100, true⟩, ⟨2, 5, false⟩] ∧
      validateTickSlashInfo canonicalEnv [⟨2, 5, false⟩, ⟨1, 100, true⟩]
          ⟨[1, 100, 1, 2, 5, 0]⟩ =
        validateTickSlashInfo canonicalEnv [⟨1, 100, true⟩, ⟨2, 5, false⟩]
          ⟨[1, 100, 1, 2, 5, 0]⟩ :=
  validateTickSlashInfo_order_independent canonicalEnv (fun l => .ok (sampleInfoHash l)) id
    [⟨2, 5, false⟩, ⟨1, 100, true⟩] [⟨1, 100, true⟩, ⟨2, 5, false⟩] ⟨[1, 100, 1, 2, 5, 0]⟩
    rfl (List.Perm.swap _ _ _) (by decide)

/-! ## The `propose-span` command -/

/-- C10 (counterexample): with `--bor-chain-id`, `--start-block` given and
every query and the broadcast succeeding, omitting `--span-id` alone makes the
command fail with "Span Id cannot be empty", while the same run with a span id
succeeds. -/
theorem proposeSpan_span_id_required :
    PostSendProposeSpanTx sampleCliEnv ⟨"15001", "", "100", ""⟩ =
        ⟨some ⟨"Span Id cannot be empty"⟩, []⟩ ∧
      (PostSendProposeSpanTx sampleCliEnv ⟨"15001", "", "100", "3"⟩).err = none := by
  decide

/-- C10 (amended): an empty `--bor-chain-id`, an empty `--start-block`, or,
once the start block has parsed, an empty `--span-id` makes the command
return a descriptive error before any chain query or broadcast. `--proposer`
is optional: whatever its value, when the other three flags are given and
parse and the three queries answer with non-empty, decodable results, the
command broadcasts one ProposeSpan message whose proposer is the flag's
address, or this node's own address when the flag decodes to the empty
address, and returns the broadcaster's result. -/
theorem proposeSpan_flags (env : CliEnv) (flags : Flags) :
    (flags.FlagBorChainId = "" →
      PostSendProposeSpanTx env flags = ⟨some ⟨"ChainID cannot be empty"⟩, []⟩) ∧
    (flags.FlagBorChainId ≠ "" → flags.FlagStartBlock = "" →
      PostSendProposeSpanTx env flags = ⟨some ⟨"Start block cannot be empty"⟩, []⟩) ∧
    (∀ startBlock, flags.FlagBorChainId ≠ "" → flags.FlagStartBlock ≠ "" →
      ParseUint flags.FlagStartBlock = .ok startBlock → flags.FlagSpanId = "" →
      PostSendProposeSpanTx env flags = ⟨some ⟨"Span Id cannot be empty"⟩, []⟩) ∧
    (∀ startBlock spanId res₁ spanDuration res₂ ackCount res₃,
      flags.FlagBorChainId ≠ "" → flags.FlagStartBlock ≠ "" →
      ParseUint flags.FlagStartBlock = .ok startBlock → flags.FlagSpanId ≠ "" →
      ParseUint flags.FlagSpanId = .ok spanId →
      env.QueryWithData .SpanDuration = .ok res₁ → res₁.length ≠ 0 →
      env.UnmarshalJSON res₁ = .ok spanDuration →
      env.QueryWithData .AckCount = .ok res₂ → res₂.length ≠ 0 →
      env.UnmarshalJSON res₂ = .ok ackCount →
      env.QueryStore = .ok res₃ → res₃.length ≠ 0 →
      ∃ msg : MsgProposeSpan,
        msg.Proposer = spanProposer env flags ∧ msg.ID = spanId ∧
        msg.StartBlock = startBlock ∧ msg.ChainID = flags.FlagBorChainId ∧
        PostSendProposeSpanTx env flags =
          ⟨env.BroadcastMsgsWithCLI [msg],
            [.QueryWithData .SpanDuration, .QueryWithData .AckCount, .QueryStore,
              .BroadcastMsgsWithCLI [msg]]⟩) := by
  refine ⟨fun h => ?_, fun hc hs => ?_, fun startBlock hc hs hp hi => ?_, ?_⟩
  · unfold PostSendProposeSpanTx
    simp only [h, if_true]
  · unfold PostSendProposeSpanTx
    simp only [hc, hs, if_true, if_false]
  · unfold PostSendProposeSpanTx
    simp only [hc, hs, hp, hi, if_true, if_false]
  · intro startBlock spanId res₁ spanDuration res₂ ackCount res₃ hc hs hp hi hq h₁ n₁ u₁ h₂ n₂ u₂
      h₃ n₃
    refine ⟨⟨spanId, spanProposer env flags, startBlock, (startBlock + spanDuration) % 2 ^ 64,
      ((env.UnmarshalBinaryBare res₃).filter fun val =>
        env.IsCurrentValidator val ackCount).map env.MinimalVal,
      ((env.UnmarshalBinaryBare res₃).filter fun val =>
        env.IsCurrentValidator val ackCount).map env.MinimalVal,
      flags.FlagBorChainId⟩, rfl, rfl, rfl, rfl, ?_⟩
    unfold PostSendProposeSpanTx proposeSpanQueryAndBroadcast
    simp only [hc, hs, hp, hi, hq, h₁, n₁, u₁, h₂, n₂, u₂, h₃, n₃, if_false]

/-- C10 witness: in the sample environment an empty chain id, an empty start
block and an empty span id each fail before any network call, and a run
without `--proposer` broadcasts one message with this node's own address as
proposer and succeeds. -/
theorem proposeSpan_flags_witness :
    PostSendProposeSpanTx sampleCliEnv ⟨"", "", "100", "3"⟩ =
        ⟨some ⟨"ChainID cannot be empty"⟩, []⟩ ∧
      PostSendProposeSpanTx sampleCliEnv ⟨"15001", "", "", "3"⟩ =
        ⟨some ⟨"Start block cannot be empty"⟩, []⟩ ∧
      PostSendProposeSpanTx sampleCliEnv ⟨"15001", "", "100", ""⟩ =
        ⟨some ⟨"Span Id cannot be empty"⟩, []⟩ ∧
      ∃ msg : MsgProposeSpan,
        msg.Proposer = spanProposer sampleCliEnv ⟨"15001", "", "100", "3"⟩ ∧
        msg.ID = 3 ∧ msg.StartBlock = 100 ∧ msg.ChainID = "15001" ∧
        PostSendProposeSpanTx sampleCliEnv ⟨"15001", "", "100", "3"⟩ =
          ⟨sampleCliEnv.BroadcastMsgsWithCLI [msg],
            [.QueryWithData .SpanDuration, .QueryWithData .AckCount, .QueryStore,
              .BroadcastMsgsWithCLI [msg]]⟩ :=
  ⟨(proposeSpan_flags sampleCliEnv ⟨"", "", "100", "3"⟩).1 rfl,
    (proposeSpan_flags sampleCliEnv ⟨"15001", "", "", "3"⟩).2.1 (by decide) rfl,
    (proposeSpan_flags sampleCliEnv ⟨"15001", "", "100", ""⟩).2.2.1 100
      (by decide) (by decide) (by decide) rfl,
    (proposeSpan_flags sampleCliEnv ⟨"15001", "", "100", "3"⟩).2.2.2 100 3 [64] 64 [5] 5 [1, 2]
      (by decide) (by decide) (by decide) (by decide) (by decide) (by decide) (by decide)
      (by decide) (by decide) (by decide) (by decide) (by decide) (by decide)⟩

end Heimdall
